import Mathlib

/-!
Verification of the ecu-simulator / obd_reader core: the 13-byte CAN-over-TCP
frame codec, the ECU service dispatcher (services 0x01, 0x03, 0x04), the DTC
store and its background generator, and the reader-side response correlator.
All definitions are shallow embeddings of the Python source under
src/ecu-simulator/; bytes are modelled as Nat, byte lists as List Nat.
-/

namespace EcuSim

/-- A CAN message as built by `can.Message(arbitration_id=..., data=...)`:
an arbitration id and a data byte list. The implicit length/dlc field is
`data.length`, exactly as `len(msg.data)` is used by the source. -/
structure Msg where
  arbitration_id : Nat
  data : List Nat
  deriving DecidableEq, Repr

/-- The four little-endian bytes of `struct.pack('<I', n)`. -/
def u32le (n : Nat) : List Nat :=
  [n % 256, n / 256 % 256, n / 65536 % 256, n / 16777216 % 256]

/-- `bytes(msg.data).ljust(8, b'\x00')` followed by the `8s` struct field:
left-justify with zero padding to 8 bytes, then truncate to 8 bytes
(struct's `8s` silently truncates longer input). -/
def ljust8 (d : List Nat) : List Nat :=
  (d ++ List.replicate (8 - d.length) 0).take 8

/-- `struct.pack('<I B 8s', msg.arbitration_id, len(msg.data),
bytes(msg.data).ljust(8, b'\x00'))` from `broadcast_can_message` and
`send_request`: 4-byte little-endian id, 1-byte dlc, 8-byte padded payload. -/
def encodeMsg (m : Msg) : List Nat :=
  u32le m.arbitration_id ++ [m.data.length] ++ ljust8 m.data

/-- The receive side (`receive_from_client` / `OBDReader._tcp_receiver`):
given exactly 13 bytes, `struct.unpack('<I B 8s', data)` then
`can.Message(arbitration_id=arb_id, data=msg_data[:dlc])`. Anything other
than 13 bytes is not decoded (`none`). Python's slice `msg_data[:dlc]`
saturates, which `List.take` mirrors. -/
def decodeMsg (bs : List Nat) : Option Msg :=
  if bs.length = 13 then
    some { arbitration_id :=
             bs.getD 0 0 + 256 * bs.getD 1 0 + 65536 * bs.getD 2 0 +
               16777216 * bs.getD 3 0,
           data := (bs.drop 5).take (bs.getD 4 0) }
  else none

/-- Python's `random.randint(a, b)`: a uniformly drawn integer with
`a ≤ result ≤ b`. Modelled with an explicit seed: `a + seed % (b - a + 1)`,
which realises exactly the values of the inclusive range. -/
def randint (a b seed : Nat) : Nat := a + seed % (b - a + 1)

/-- `service1(bus, msg)` from ecu-simulator.py, as a function of the
requested PID (`msg.data[2]`) and of the seeds of its at most two `randint`
draws. Each branch builds the source's literal `can.Message`; the trailing
`else` produces no response (`None`). -/
def service1 (pid s1 s2 : Nat) : Option Msg :=
  if pid = 0x00 then
    some ⟨0x7E8, [0x06, 0x41, 0x00, 0xBF, 0xDF, 0xB9, 0x91]⟩
  else if pid = 0x04 then
    some ⟨0x7E8, [0x03, 0x41, 0x04, 0x20]⟩
  else if pid = 0x05 then
    some ⟨0x7E8, [0x03, 0x41, 0x05, randint (88 + 40) (95 + 40) s1]⟩
  else if pid = 0x0B then
    some ⟨0x7E8, [0x04, 0x41, 0x0B, randint 10 40 s1]⟩
  else if pid = 0x0C then
    some ⟨0x7E8, [0x04, 0x41, 0x0C, randint 18 70 s1, randint 0 255 s2]⟩
  else if pid = 0x0D then
    some ⟨0x7E8, [0x03, 0x41, 0x0D, randint 40 60 s1]⟩
  else if pid = 0x0F then
    some ⟨0x7E8, [0x03, 0x41, 0x0F, randint 60 64 s1]⟩
  else if pid = 0x10 then
    some ⟨0x7E8, [0x04, 0x41, 0x10, 0x00, 0xFA]⟩
  else if pid = 0x11 then
    some ⟨0x7E8, [0x03, 0x41, 0x11, randint 20 60 s1]⟩
  else if pid = 0x33 then
    some ⟨0x7E8, [0x03, 0x41, 0x33, randint 20 60 s1]⟩
  else
    none

/-- A diagnostic trouble code: the `(high, low)` byte pair. -/
abbrev Dtc := Nat × Nat

/-- The fixed pool of 8 powertrain codes, `DTC_POOL`. -/
def DTC_POOL : List Dtc :=
  [(0x01, 0x33), (0x01, 0x71), (0x01, 0x74), (0x03, 0x00),
   (0x03, 0x01), (0x04, 0x20), (0x04, 0x40), (0x05, 0x62)]

/-- The `while len(dtc_data) < 8: dtc_data.append(0x00)` padding loop:
append zeros until the list is at least 8 long (no truncation). -/
def pad8 (l : List Nat) : List Nat := l ++ List.replicate (8 - l.length) 0

/-- `service3(bus, msg)`: read stored DTCs. Empty store: the fixed
zero-count frame. Otherwise `[0x43]` followed by the byte pairs of the
first (at most) 3 codes, padded with zeros to 8 bytes, with
`len(dtc_data) - 1` prepended, exactly as
`data=[len(dtc_data)-1] + dtc_data` does. -/
def service3 (active_dtcs : List Dtc) : Msg :=
  if active_dtcs.length = 0 then
    ⟨0x7E8, [0x01, 0x43, 0x00, 0x00, 0x00, 0x00, 0x00, 0x00]⟩
  else
    let dtc_data :=
      pad8 (0x43 :: (active_dtcs.take 3).foldr (fun d acc => d.1 :: d.2 :: acc) [])
    ⟨0x7E8, (dtc_data.length - 1) :: dtc_data⟩

/-- `service4(bus, msg)`: clear DTCs. Sets `active_dtcs = []` and responds
with the fixed cleared-state frame. Returns (new store, response). -/
def service4 (_active_dtcs : List Dtc) : List Dtc × Msg :=
  ([], ⟨0x7E8, [0x01, 0x44, 0x00, 0x00, 0x00, 0x00, 0x00, 0x00]⟩)

/-- The frames a dispatch of `service1` emits: `if response: bus.send /
broadcast_can_message(response)` — one frame when a response was built,
none otherwise. -/
def responseFrames (resp : Option Msg) : List Msg :=
  match resp with
  | some r => [r]
  | none => []

/-- `OBDReader.wait_response(timeout=1.0)`: poll the response queue; each
iteration pops the head frame if the queue is non-empty and returns it when
its `arbitration_id` is `RESPONSE_ID` (0x7E8); a popped frame with any other
id is discarded and polling continues. The timeout (1.0 s at 0.01 s
granularity) is modelled as iteration fuel. Returns the result and the
remaining queue. -/
def waitResponse : Nat → List Msg → Option Msg × List Msg
  | 0, q => (none, q)
  | fuel + 1, [] => waitResponse fuel []
  | fuel + 1, m :: rest =>
      if m.arbitration_id = 0x7E8 then (some m, rest)
      else waitResponse fuel rest

/-- The decode step of `OBDReader.read_rpm` applied to the `wait_response`
result: `if response and response.data[1] == 0x41 and response.data[2] ==
0x0C: rpm = ((response.data[3] * 256) + response.data[4]) / 4` (Python float
division; exact here since the divisor is 4, modelled in ℚ). -/
def read_rpm_decode (resp : Option Msg) : Option ℚ :=
  match resp with
  | none => none
  | some r =>
      if r.data.getD 1 0 = 0x41 ∧ r.data.getD 2 0 = 0x0C then
        some (((r.data.getD 3 0 * 256 + r.data.getD 4 0 : Nat) : ℚ) / 4)
      else none

/-- Python `range(start, stop, step)` for positive step. -/
def pyRange (start stop step : Nat) : List Nat :=
  List.range' start ((stop - start + step - 1) / step) step

/-- The hexadecimal digit of `0 ≤ n < 16` as printed by `%02X`. -/
def hexDigit (n : Nat) : Char :=
  if n < 10 then Char.ofNat (48 + n) else Char.ofNat (55 + n)

/-- `%02X` rendering of a byte `b < 256`: two upper-case hex digits. -/
def byteHex (b : Nat) : String :=
  String.mk [hexDigit (b / 16 % 16), hexDigit (b % 16)]

/-- The f-string of `OBDReader.read_dtcs`: a pair renders as a P-code,
`P` followed by the two bytes in `%02X`. -/
def dtcStr (hi lo : Nat) : String := "P" ++ byteHex hi ++ byteHex lo

/-- The parse step of `OBDReader.read_dtcs` applied to the `wait_response`
result: `if response and response.data[1] == 0x43: for i in range(2,
len(response.data)-1, 2): if response.data[i] != 0x00: append
P-code(data[i], data[i+1])`; otherwise the empty list. -/
def read_dtcs_parse (resp : Option Msg) : List String :=
  match resp with
  | none => []
  | some r =>
      if r.data.getD 1 0 = 0x43 then
        (pyRange 2 (r.data.length - 1) 2).foldr
          (fun i acc =>
            if r.data.getD i 0 ≠ 0x00 then
              dtcStr (r.data.getD i 0) (r.data.getD (i + 1) 0) :: acc
            else acc)
          []
      else []

/-- One observable event at a receive task's socket: `recv(13)` returned a
chunk of bytes, or the read raised a socket exception. -/
inductive RecvEvent where
  | chunk (bytes : List Nat)
  | err
  deriving DecidableEq, Repr

/-- The receive loop shared by `receive_from_client` (ECU side) and
`OBDReader._tcp_receiver` (reader side): for each `recv(13)` result, a chunk
of exactly 13 bytes is unpacked and appended to the queue, any other chunk
is skipped and the loop continues; an exception breaks the loop, after which
the client is removed. Returns the frames appended to the queue and whether
the loop terminated (the client was removed). -/
def runReceiver : List RecvEvent → List Msg × Bool
  | [] => ([], false)
  | RecvEvent.err :: _ => ([], true)
  | RecvEvent.chunk bs :: rest =>
      match decodeMsg bs with
      | some m =>
          let r := runReceiver rest
          (m :: r.1, r.2)
      | none => runReceiver rest

/-- One tick of `random_dtc_generator`: with probability 0.7 (`doAdd`), if
the set has fewer than 5 members, `choice(DTC_POOL)` (the seeded index) is
appended when not already present; then, if the set is non-empty, with
probability 0.1 (`doRemove`), `pop(randint(0, len-1))` removes a seeded
member. -/
def genTick (s : List Dtc) (doAdd : Bool) (choiceSeed : Nat)
    (doRemove : Bool) (removeSeed : Nat) : List Dtc :=
  let s1 :=
    if doAdd ∧ s.length < 5 then
      let new_dtc := DTC_POOL.getD (choiceSeed % DTC_POOL.length) (0, 0)
      if new_dtc ∈ s then s else s ++ [new_dtc]
    else s
  if s1 ≠ [] ∧ doRemove then
    s1.eraseIdx (randint 0 (s1.length - 1) removeSeed)
  else s1

/-- A mutation of the shared `active_dtcs` store: a generator tick or a
Service 0x04 clear. -/
inductive DtcOp where
  | tick (doAdd : Bool) (choiceSeed : Nat) (doRemove : Bool) (removeSeed : Nat)
  | clear
  deriving Repr

/-- Apply one store mutation. -/
def applyOp (s : List Dtc) : DtcOp → List Dtc
  | DtcOp.tick a cs r rs => genTick s a cs r rs
  | DtcOp.clear => (service4 s).1

/-- Run a sequence of store mutations from the initial empty store. -/
def runOps (ops : List DtcOp) : List Dtc := ops.foldl applyOp []

/-- The store invariant of claim C8 (minus the derived no-(0,0) clause):
bounded by 5, duplicate-free, drawn from the pool. -/
def DtcInv (s : List Dtc) : Prop :=
  s.length ≤ 5 ∧ s.Nodup ∧ ∀ d ∈ s, d ∈ DTC_POOL

theorem u32le_length (n : Nat) : (u32le n).length = 4 := rfl

theorem ljust8_length (d : List Nat) (h : d.length ≤ 8) :
    (ljust8 d).length = 8 := by
  simp [ljust8]
  omega

theorem encodeMsg_length (m : Msg) (h : m.data.length ≤ 8) :
    (encodeMsg m).length = 13 := by
  simp [encodeMsg, u32le, ljust8]
  omega

theorem ljust8_take (d : List Nat) (h : d.length ≤ 8) :
    (ljust8 d).take d.length = d := by
  unfold ljust8
  rw [List.take_take, Nat.min_eq_left h, List.take_append_of_le_length le_rfl,
    List.take_length]

end EcuSim

/-- C1. Frame codec round-trip: for every frame with arbitration_id < 2^32,
length ≤ 8 and payload of exactly that length, decoding the 13-byte encoding
(4-byte little-endian id, 1-byte length, 8-byte zero-padded payload) yields
the same arbitration_id, the same length (= data length) and the same payload
bytes. -/
theorem C1_frame_codec_roundtrip (id : Nat) (payload : List Nat)
    (hid : id < 4294967296) (hlen : payload.length ≤ 8) :
    EcuSim.decodeMsg (EcuSim.encodeMsg ⟨id, payload⟩) =
      some ⟨id, payload⟩ := by
  have h13 : (EcuSim.encodeMsg ⟨id, payload⟩).length = 13 :=
    EcuSim.encodeMsg_length _ hlen
  unfold EcuSim.decodeMsg
  rw [if_pos h13]
  have hdrop : (EcuSim.encodeMsg ⟨id, payload⟩).drop 5 = EcuSim.ljust8 payload := by
    simp [EcuSim.encodeMsg, EcuSim.u32le, List.drop_append]
  have hget4 : (EcuSim.encodeMsg ⟨id, payload⟩).getD 4 0 = payload.length := by
    simp [EcuSim.encodeMsg, EcuSim.u32le]
  have hid0 : (EcuSim.encodeMsg ⟨id, payload⟩).getD 0 0 = id % 256 := by
    simp [EcuSim.encodeMsg, EcuSim.u32le]
  have hid1 : (EcuSim.encodeMsg ⟨id, payload⟩).getD 1 0 = id / 256 % 256 := by
    simp [EcuSim.encodeMsg, EcuSim.u32le]
  have hid2 : (EcuSim.encodeMsg ⟨id, payload⟩).getD 2 0 = id / 65536 % 256 := by
    simp [EcuSim.encodeMsg, EcuSim.u32le]
  have hid3 : (EcuSim.encodeMsg ⟨id, payload⟩).getD 3 0 = id / 16777216 % 256 := by
    simp [EcuSim.encodeMsg, EcuSim.u32le]
  rw [hdrop, hget4, hid0, hid1, hid2, hid3, EcuSim.ljust8_take payload hlen]
  congr 1
  congr 1
  omega

/-- C1 witness: the round-trip at a concrete OBD request frame
(id 0x7DF, payload of 3 bytes). -/
theorem C1_frame_codec_roundtrip_witness :
    EcuSim.decodeMsg (EcuSim.encodeMsg ⟨0x7DF, [0x02, 0x01, 0x0C]⟩) =
      some ⟨0x7DF, [0x02, 0x01, 0x0C]⟩ :=
  C1_frame_codec_roundtrip 0x7DF [0x02, 0x01, 0x0C] (by decide) (by decide)

open EcuSim

theorem waitResponse_nil (fuel : Nat) : waitResponse fuel [] = (none, []) := by
  induction fuel with
  | zero => rfl
  | succ n ih => rw [waitResponse]; exact ih

/-- C2 counterexample: (a) while waiting for the response to PID 0x0C, a
queued frame with arbitration_id 0x7E8 but byte 2 = 0x0D (a different PID)
is removed from the queue and returned anyway — `wait_response` never
inspects bytes 1 or 2; (b) a queued frame with arbitration_id 0x7DF (not
matching the expectation) is removed from the queue and discarded, leaving
the queue empty, rather than being left in the queue while waiting. -/
theorem C2_counterexample :
    waitResponse 1 [⟨0x7E8, [0x03, 0x41, 0x0D, 0x32]⟩] =
      (some ⟨0x7E8, [0x03, 0x41, 0x0D, 0x32]⟩, []) ∧
    (0x0D : Nat) ≠ 0x0C ∧
    waitResponse 2 [⟨0x7DF, [0x02, 0x01, 0x0C, 0x00, 0x00, 0x00, 0x00, 0x00]⟩] =
      (none, []) ∧
    (0x7DF : Nat) ≠ 0x7E8 := by decide

/-- C2 amended: whenever `wait_response` returns a frame, that frame has
arbitration_id 0x7E8 and is the first such frame in the queue; every frame
ahead of it (necessarily with a different arbitration_id) has been removed
from the queue and discarded. No byte-1 or byte-2 condition is checked
before removal: those checks happen in the caller (e.g. `read_rpm`) after
the frame has already been popped. -/
theorem C2_wait_response_amended (fuel : Nat) (q : List Msg) (m : Msg)
    (q' : List Msg) (h : waitResponse fuel q = (some m, q')) :
    m.arbitration_id = 0x7E8 ∧
    ∃ pre, q = pre ++ m :: q' ∧ ∀ x ∈ pre, x.arbitration_id ≠ 0x7E8 := by
  induction fuel generalizing q with
  | zero => simp [waitResponse] at h
  | succ n ih =>
    match q with
    | [] =>
      rw [waitResponse] at h
      obtain ⟨h1, pre, hpre, hall⟩ := ih [] h
      exact absurd hpre (by simp)
    | a :: rest =>
      rw [waitResponse] at h
      by_cases ha : a.arbitration_id = 0x7E8
      · rw [if_pos ha] at h
        have hm : some a = some m := congrArg Prod.fst h
        have hq : rest = q' := congrArg Prod.snd h
        obtain rfl : a = m := Option.some.inj hm
        subst hq
        exact ⟨ha, [], rfl, by simp⟩
      · rw [if_neg ha] at h
        obtain ⟨h1, pre, hpre, hall⟩ := ih rest h
        refine ⟨h1, a :: pre, by rw [List.cons_append, hpre], ?_⟩
        intro x hx
        rcases List.mem_cons.mp hx with hx | hx
        · exact hx ▸ ha
        · exact hall x hx

/-- C2 amended, witness: a concrete queue holding a request echo (id 0x7DF)
followed by a 0x7E8 frame; the 0x7E8 frame is returned and the frame ahead
of it was removed. -/
theorem C2_wait_response_amended_witness :
    (⟨0x7E8, [0x03, 0x41, 0x0D, 0x32]⟩ : Msg).arbitration_id = 0x7E8 ∧
    ∃ pre,
      [(⟨0x7DF, [0x02, 0x01, 0x0C, 0x00, 0x00, 0x00, 0x00, 0x00]⟩ : Msg),
        ⟨0x7E8, [0x03, 0x41, 0x0D, 0x32]⟩] =
        pre ++ (⟨0x7E8, [0x03, 0x41, 0x0D, 0x32]⟩ : Msg) :: ([] : List Msg) ∧
      ∀ x ∈ pre, x.arbitration_id ≠ 0x7E8 :=
  C2_wait_response_amended 2
    [⟨0x7DF, [0x02, 0x01, 0x0C, 0x00, 0x00, 0x00, 0x00, 0x00]⟩,
      ⟨0x7E8, [0x03, 0x41, 0x0D, 0x32]⟩]
    ⟨0x7E8, [0x03, 0x41, 0x0D, 0x32]⟩ [] (by decide)

/-- C3: with an empty DTC store, `service3` responds
[0x01,0x43,0,0,0,0,0,0] (as claimed); but with the single stored code
(0x03,0x00), the payload is the 9-byte [0x07,0x43,0x03,0x00,0,0,0,0,0] —
byte 0 is 7 (the padded length minus one), not 3 (the count of meaningful
bytes) — because the source pads `dtc_data` to 8 bytes before prepending
`len(dtc_data)-1`. The claimed payload [0x03,0x43,0x03,0x00,0,0,0,0] is not
produced. -/
theorem C3_service3_response_shape :
    (service3 []).data = [0x01, 0x43, 0x00, 0x00, 0x00, 0x00, 0x00, 0x00] ∧
    (service3 [(0x03, 0x00)]).data =
      [0x07, 0x43, 0x03, 0x00, 0x00, 0x00, 0x00, 0x00, 0x00] ∧
    (service3 [(0x03, 0x00)]).data ≠
      [0x03, 0x43, 0x03, 0x00, 0x00, 0x00, 0x00, 0x00] := by decide

/-- C4: the service-3 response for a non-empty store has 9 payload bytes,
so its length field on the wire (`len(msg.data)`, byte 4 of the encoding)
is 9, violating the claimed 0–8 invariant; the on-wire payload, however, is
always exactly 8 bytes (`8s` pads or truncates), as claimed. -/
theorem C4_length_field :
    (service3 [(0x03, 0x00)]).data.length = 9 ∧
    ¬ (service3 [(0x03, 0x00)]).data.length ≤ 8 ∧
    (encodeMsg (service3 [(0x03, 0x00)])).getD 4 0 = 9 ∧
    ∀ m : Msg, ((encodeMsg m).drop 5).length = 8 := by
  refine ⟨by decide, by decide, by decide, fun m => ?_⟩
  simp [encodeMsg, u32le, ljust8]
  omega

/-- C5 counterexample: after a 5-byte short read, the receive task does not
terminate — it continues reading the stream, decodes the following 13-byte
chunk into a frame, and the client is never removed (the Bool is false). -/
theorem C5_counterexample :
    runReceiver
        [RecvEvent.chunk [0x02, 0x01, 0x0C, 0x00, 0x00],
          RecvEvent.chunk
            (encodeMsg ⟨0x7DF, [0x02, 0x01, 0x0C, 0x00, 0x00, 0x00, 0x00, 0x00]⟩)] =
      ([⟨0x7DF, [0x02, 0x01, 0x0C, 0x00, 0x00, 0x00, 0x00, 0x00]⟩], false) ∧
    ([0x02, 0x01, 0x0C, 0x00, 0x00] : List Nat).length < 13 := by decide

/-- C5 amended: a read of other than exactly 13 bytes is discarded — it is
never interpreted as a frame — and the receive loop simply continues with
the next read; the task terminates and the client is removed only when the
socket read raises an exception. -/
theorem C5_short_read_amended (bs : List Nat) (rest : List RecvEvent)
    (h : bs.length ≠ 13) :
    runReceiver (RecvEvent.chunk bs :: rest) = runReceiver rest ∧
    runReceiver (RecvEvent.err :: rest) = ([], true) := by
  constructor
  · simp [runReceiver, decodeMsg, h]
  · rfl

/-- C5 amended, witness: a concrete 5-byte short read followed by a socket
error. -/
theorem C5_short_read_amended_witness :
    runReceiver [RecvEvent.chunk [0x02, 0x01, 0x0C, 0x00, 0x00], RecvEvent.err] =
      runReceiver [RecvEvent.err] ∧
    runReceiver [RecvEvent.err, RecvEvent.err] = ([], true) :=
  C5_short_read_amended [0x02, 0x01, 0x0C, 0x00, 0x00] [RecvEvent.err]
    (by decide)

/-- C6: for every PID outside the ten supported ones, `service1` returns
no response, so the dispatcher emits no frame at all (`if response:` guards
both the bus send and the broadcast), and the reader-side wait on an empty
response queue yields None (an absent result) when the timeout fuel runs
out — no exception, no error code. -/
theorem C6_unknown_pid_fail_silent (pid s1 s2 fuel : Nat)
    (h : pid ∉ ([0x00, 0x04, 0x05, 0x0B, 0x0C, 0x0D, 0x0F, 0x10, 0x11, 0x33] :
      List Nat)) :
    service1 pid s1 s2 = none ∧
    responseFrames (service1 pid s1 s2) = [] ∧
    waitResponse fuel [] = (none, []) := by
  simp only [List.mem_cons, List.not_mem_nil, or_false, not_or] at h
  obtain ⟨h0, h4, h5, hB, hC, hD, hF, h10, h11, h33⟩ := h
  have hs : service1 pid s1 s2 = none := by
    simp [service1, h0, h4, h5, hB, hC, hD, hF, h10, h11, h33]
  exact ⟨hs, by rw [hs]; rfl, waitResponse_nil fuel⟩

/-- C6 witness: the unsupported PID 0x99 with a 100-iteration (1 s) wait. -/
theorem C6_unknown_pid_fail_silent_witness :
    service1 0x99 0 0 = none ∧
    responseFrames (service1 0x99 0 0) = [] ∧
    waitResponse 100 [] = (none, []) :=
  C6_unknown_pid_fail_silent 0x99 0 0 100 (by decide)

/-- C7: every service-1 / PID-0x0C response is
[0x04,0x41,0x0C,A,B] with 18 ≤ A ≤ 70 (the range of randint(18,70)) and
B ≤ 255 (the range of randint(0,255)), and the reader decodes exactly
((A*256)+B)/4 from it. -/
theorem C7_rpm_generation_decoding (s1 s2 : Nat) :
    ∃ A B, service1 0x0C s1 s2 = some ⟨0x7E8, [0x04, 0x41, 0x0C, A, B]⟩ ∧
      18 ≤ A ∧ A ≤ 70 ∧ B ≤ 255 ∧
      read_rpm_decode (service1 0x0C s1 s2) = some ((A * 256 + B : ℚ) / 4) := by
  refine ⟨randint 18 70 s1, randint 0 255 s2, rfl, ?_, ?_, ?_, ?_⟩
  · simp [randint]
  · simp only [randint]
    have := Nat.mod_lt s1 (show 0 < 70 - 18 + 1 by norm_num)
    omega
  · simp only [randint]
    have := Nat.mod_lt s2 (show 0 < 255 - 0 + 1 by norm_num)
    omega
  · simp only [read_rpm_decode, service1]
    norm_num [List.getD]

theorem dtc_pool_getD_mem (cs : Nat) :
    DTC_POOL.getD (cs % DTC_POOL.length) (0, 0) ∈ DTC_POOL := by
  have hlt : cs % DTC_POOL.length < DTC_POOL.length := Nat.mod_lt _ (by decide)
  rw [List.getD_eq_getElem _ _ hlt]
  exact List.getElem_mem hlt

theorem DtcInv_eraseIdx (s : List Dtc) (h : DtcInv s) (i : Nat) :
    DtcInv (s.eraseIdx i) := by
  obtain ⟨hlen, hnodup, hmem⟩ := h
  have hsub : List.Sublist (s.eraseIdx i) s := List.eraseIdx_sublist s i
  exact ⟨le_trans hsub.length_le hlen, hnodup.sublist hsub,
    fun d hd => hmem d (hsub.subset hd)⟩

theorem DtcInv_insertStep (s : List Dtc) (h : DtcInv s) (a : Bool) (cs : Nat) :
    DtcInv (if a ∧ s.length < 5 then
      (if DTC_POOL.getD (cs % DTC_POOL.length) (0, 0) ∈ s then s
       else s ++ [DTC_POOL.getD (cs % DTC_POOL.length) (0, 0)])
      else s) := by
  obtain ⟨hlen, hnodup, hmem⟩ := h
  split_ifs with hc hin
  · exact ⟨hlen, hnodup, hmem⟩
  · refine ⟨?_, ?_, ?_⟩
    · simp only [List.length_append, List.length_singleton]
      omega
    · rw [List.nodup_append]
      exact ⟨hnodup, List.nodup_singleton _,
        fun x hx hy => hin ((List.mem_singleton.mp hy) ▸ hx)⟩
    · intro d hd
      rcases List.mem_append.mp hd with hd | hd
      · exact hmem d hd
      · exact (List.mem_singleton.mp hd) ▸ dtc_pool_getD_mem cs
  · exact ⟨hlen, hnodup, hmem⟩

theorem DtcInv_removeStep (t : List Dtc) (h : DtcInv t) (r : Bool) (rs : Nat) :
    DtcInv (if t ≠ [] ∧ r then t.eraseIdx (randint 0 (t.length - 1) rs)
      else t) := by
  split_ifs with hr
  · exact DtcInv_eraseIdx t h _
  · exact h

theorem DtcInv_genTick (s : List Dtc) (h : DtcInv s) (a : Bool) (cs : Nat)
    (r : Bool) (rs : Nat) : DtcInv (genTick s a cs r rs) := by
  unfold genTick
  dsimp only
  exact DtcInv_removeStep _ (DtcInv_insertStep s h a cs) r rs

theorem DtcInv_applyOp (s : List Dtc) (h : DtcInv s) (op : DtcOp) :
    DtcInv (applyOp s op) := by
  cases op with
  | tick a cs r rs => exact DtcInv_genTick s h a cs r rs
  | clear =>
    exact ⟨by simp [applyOp, service4], by simp [applyOp, service4],
      by simp [applyOp, service4]⟩

/-- C8: under every sequence of generator ticks and service-4 clears from
the empty store, the active DTC set has at most 5 members, no duplicates,
only members of the fixed 8-code pool, and never contains (0x00, 0x00). -/
theorem C8_active_dtc_invariant (ops : List DtcOp) :
    (runOps ops).length ≤ 5 ∧ (runOps ops).Nodup ∧
    (∀ d ∈ runOps ops, d ∈ DTC_POOL) ∧ (0, 0) ∉ runOps ops := by
  have key : ∀ s, DtcInv s → DtcInv (ops.foldl applyOp s) := by
    induction ops with
    | nil => intro s hs; exact hs
    | cons op rest ih => intro s hs; exact ih _ (DtcInv_applyOp s hs op)
  obtain ⟨h1, h2, h3⟩ := key [] ⟨by decide, List.nodup_nil, by simp⟩
  exact ⟨h1, h2, h3, fun hmem => absurd (h3 _ hmem) (by decide)⟩

/-- C9: with no generator interference, two consecutive service-4 calls
return the identical payload [0x01,0x44,0,0,0,0,0,0], leave the store
empty, and a following service-3 reports the zero-count payload
[0x01,0x43,0,0,0,0,0,0]. -/
theorem C9_clear_idempotent (s : List Dtc) :
    (service4 s).2 = (service4 (service4 s).1).2 ∧
    (service4 s).2.data = [0x01, 0x44, 0x00, 0x00, 0x00, 0x00, 0x00, 0x00] ∧
    (service4 (service4 s).1).2.data =
      [0x01, 0x44, 0x00, 0x00, 0x00, 0x00, 0x00, 0x00] ∧
    (service4 (service4 s).1).1 = [] ∧
    (service3 (service4 (service4 s).1).1).data =
      [0x01, 0x43, 0x00, 0x00, 0x00, 0x00, 0x00, 0x00] :=
  ⟨rfl, rfl, rfl, rfl, rfl⟩

/-- C10: on an 8-byte service-3 response frame (byte 1 = 0x43), `read_dtcs`
inspects exactly the byte pairs at payload offsets 2, 4 and 6, reports a
pair iff its high byte is nonzero, and renders each reported pair as a
P-code; in particular (0x03, 0x00) renders as "P0300" while any pair with
high byte 0x00 is never reported. -/
theorem C10_read_dtcs_parsing (b0 b2 b3 b4 b5 b6 b7 : Nat) :
    read_dtcs_parse (some ⟨0x7E8, [b0, 0x43, b2, b3, b4, b5, b6, b7]⟩) =
      (([(b2, b3), (b4, b5), (b6, b7)].filter (fun p => p.1 ≠ 0x00)).map
        (fun p => dtcStr p.1 p.2)) ∧
    dtcStr 0x03 0x00 = "P0300" := by
  constructor
  · have hr : pyRange 2 ([b0, 0x43, b2, b3, b4, b5, b6, b7].length - 1) 2 =
        [2, 4, 6] := by
      simp [pyRange, List.range']
    simp only [read_dtcs_parse, hr]
    norm_num [List.getD, List.filter]
    split_ifs <;> simp_all
  · decide
